import Mathlib

/-!
Shallow embedding of `src/minizinc/solver.py` (class `Solver`) from the
minizinc-python repository.

Modelling conventions:
* A Python object is modelled as an `Obj`: a value (`Val`) together with a
  machine address (`addr : Nat`) standing for CPython's `id()`.  The `is` /
  `is not` comparison used by `Solver.__setattr__` compares addresses.  The
  `None` singleton is `noneObj` (address 0).  Freshly allocated objects are
  given addresses supplied by the caller or fixed distinct constants; no
  claim below depends on CPython's interning of particular values.
* The instance attribute dictionary is a function `Key → Option Obj`
  (`none` = attribute not yet set, so `getattr(self, key, None)` yields the
  `None` object).
* Exceptions are modelled with `Except` / explicit outcome types; the
  filesystem visible to `tempfile.NamedTemporaryFile` is a list of
  (file name, contents) pairs.  The random part of the temporary file's
  name and the address of freshly created objects are oracle parameters.
* `re.search(r"(\d+)\.(\d+)\.(\d+)", v)` is embedded as `reSearchTriple`,
  which scans start positions left to right; at each position each `\d+`
  greedily takes the maximal digit run (backtracking cannot help, because a
  shorter run would leave a digit where the literal `.` is required).
-/

inductive Key where
  | name | driver | _id
  | version | executable | mznlib | tags | stdFlags | extraFlags
  | supportsMzn | supportsFzn | needsSolns2Out | needsMznExecutable
  | needsStdlibDir | isGUIApplication
deriving DecidableEq, Repr

/-- Values stored in attribute slots: only the shapes that the source code
ever stores (strings, the parsed version triple, lists of strings, booleans,
a driver object reference, and `None`). -/
inductive Val where
  | pynone
  | str (s : String)
  | vtup (v : Nat × Nat × Nat)
  | strs (l : List String)
  | bool (b : Bool)
  | drv (d : Nat)
deriving DecidableEq, Repr

/-- A Python object: a value together with its address (`id()`). -/
structure Obj where
  val : Val
  addr : Nat
deriving DecidableEq, Repr

/-- The `None` singleton object. -/
def noneObj : Obj := ⟨Val.pynone, 0⟩

/-- String payload of an object, defaulting to `""` on a non-string object
(never reached on states built by the API, which keep string slots strings). -/
def Obj.strD (o : Obj) : String :=
  match o.val with
  | Val.str s => s
  | _ => ""

def Obj.strsD (o : Obj) : List String :=
  match o.val with
  | Val.strs l => l
  | _ => []

def Obj.boolD (o : Obj) : Bool :=
  match o.val with
  | Val.bool b => b
  | _ => false

/-- The exact key list of `Solver.__setattr__`: assigning one of these keys
a value that `is not` the current one clears `_id`. -/
def configKeys : List Key :=
  [Key.version, Key.executable, Key.mznlib, Key.tags, Key.stdFlags, Key.extraFlags,
   Key.supportsMzn, Key.supportsFzn, Key.needsSolns2Out, Key.needsMznExecutable,
   Key.needsStdlibDir, Key.isGUIApplication]

/-- State of a `Solver` instance: its attribute dictionary. -/
structure Solver where
  attrs : Key → Option Obj

/-- Embeds `getattr(self, key, None)`: the stored object, or the `None`
singleton when the attribute is absent. -/
def Solver.getattrD (s : Solver) (k : Key) : Obj := (s.attrs k).getD noneObj

/-- Embeds `Solver.__setattr__`: if `key` is one of the configuration keys
and the currently stored value `is not` the new one (address comparison),
set `self._id = None`; then store the new object under `key`. -/
def Solver.setattr (s : Solver) (k : Key) (v : Obj) : Solver :=
  let s1 : Solver :=
    if k ∈ configKeys ∧ (s.getattrD k).addr ≠ v.addr
    then ⟨fun k2 => if k2 = Key._id then some noneObj else s.attrs k2⟩
    else s
  ⟨fun k2 => if k2 = k then some v else s1.attrs k2⟩

/-! ### Version parsing: `re.search(r"(\d+)\.(\d+)\.(\d+)", version)` -/

/-- Embeds matching `(\d+)\.(\d+)\.(\d+)` anchored at the head of `cs`,
returning the three captured groups.  Each `\d+` takes the maximal digit
run; for the first two groups this is equivalent to the regex engine's
backtracking, because any shorter run leaves a digit where the literal `.`
must match. -/
def matchTripleAt (cs : List Char) : Option (List Char × List Char × List Char) :=
  if (cs.takeWhile Char.isDigit).isEmpty then none else
  match cs.dropWhile Char.isDigit with
  | '.' :: r2 =>
    if (r2.takeWhile Char.isDigit).isEmpty then none else
    match r2.dropWhile Char.isDigit with
    | '.' :: r4 =>
      if (r4.takeWhile Char.isDigit).isEmpty then none
      else some (cs.takeWhile Char.isDigit, r2.takeWhile Char.isDigit,
        r4.takeWhile Char.isDigit)
    | _ => none
  | _ => none

/-- Embeds `re.search`: try every start position from the left, returning
the groups of the first position where the pattern matches. -/
def reSearchTriple : List Char → Option (List Char × List Char × List Char)
  | [] => none
  | c :: rest =>
    match matchTripleAt (c :: rest) with
    | some g => some g
    | none => reSearchTriple rest

/-- Embeds Python `int()` on a (non-empty, all-digit) captured group. -/
def digitsToNat (l : List Char) : Nat :=
  l.foldl (fun n c => n * 10 + (c.toNat - 48)) 0

/-! ### Construction: `Solver.__init__` -/

/-- Embeds `Solver.__init__(name, version, executable, driver=None)`.

`driverArg = none` models passing `None` (or omitting the argument), in
which case the process-global `minizinc.default_driver` is used.  A driver
object is identified by its address `d` and stored as `Obj ⟨Val.drv d, d⟩`.
Every assignment goes through `Solver.setattr`, as in the source, and the
non-singleton fresh objects receive the distinct addresses 1..13.
Returns `none` when `re.search` finds no match (then `match.groups()`
raises `AttributeError`, so construction fails). -/
def Solver.init (nm versionStr exe : String) (driverArg default_driver : Option Nat) :
    Option Solver :=
  let drv0 : Option Nat :=
    match driverArg with
    | none => default_driver
    | some d => some d
  let s0 : Solver := ⟨fun _ => none⟩
  let s1 := s0.setattr Key.driver
    (match drv0 with
     | none => noneObj
     | some d => ⟨Val.drv d, d⟩)
  let s2 := s1.setattr Key.name ⟨Val.str nm, 1⟩
  let s3 := s2.setattr Key._id noneObj
  match reSearchTriple versionStr.data with
  | none => none
  | some (g1, g2, g3) =>
    let s4 := s3.setattr Key.version ⟨Val.vtup (digitsToNat g1, digitsToNat g2, digitsToNat g3), 2⟩
    let s5 := s4.setattr Key.executable ⟨Val.str exe, 3⟩
    let s6 := s5.setattr Key.mznlib ⟨Val.str "", 4⟩
    let s7 := s6.setattr Key.tags ⟨Val.strs [], 5⟩
    let s8 := s7.setattr Key.stdFlags ⟨Val.strs [], 6⟩
    let s9 := s8.setattr Key.extraFlags ⟨Val.strs [], 7⟩
    let s10 := s9.setattr Key.supportsMzn ⟨Val.bool false, 8⟩
    let s11 := s10.setattr Key.supportsFzn ⟨Val.bool true, 9⟩
    let s12 := s11.setattr Key.needsSolns2Out ⟨Val.bool false, 10⟩
    let s13 := s12.setattr Key.needsMznExecutable ⟨Val.bool false, 11⟩
    let s14 := s13.setattr Key.needsStdlibDir ⟨Val.bool false, 12⟩
    some (s14.setattr Key.isGUIApplication ⟨Val.bool false, 13⟩)

/-! ### The `id` property -/

/-- Embeds `str.lower()`: per-character lowercasing.  (`String.toLower` is
the same character map, but defined by well-founded recursion on byte
positions, which does not reduce; mapping over the character list is the
directly computable equivalent.) -/
def pyLower (s : String) : String := ⟨s.data.map Char.toLower⟩

/-- Embeds the `id` property: if `self._id is None`, return
`"org.minizinc.python." + self.name.lower()`, else return `self._id`. -/
def Solver.effId (s : Solver) : String :=
  let o := s.getattrD Key._id
  if o.val = Val.pynone then
    "org.minizinc.python." ++ pyLower (s.getattrD Key.name).strD
  else
    o.strD

/-! ### Serialization: `Solver.to_json` (embeds `json.dumps(info, sort_keys=True, indent=4)`) -/

/-- JSON value shapes appearing in the serialized configuration document. -/
inductive JVal where
  | jstr (s : String)
  | jarr (l : List String)
  | jbool (b : Bool)
deriving DecidableEq, Repr

/-- Lowercase hexadecimal digit, as produced by Python's `\uXXXX` escapes. -/
def hexDigit (n : Nat) : Char :=
  if n < 10 then Char.ofNat (48 + n) else Char.ofNat (87 + n)

def hex4 (n : Nat) : String :=
  String.mk [hexDigit (n / 4096 % 16), hexDigit (n / 256 % 16), hexDigit (n / 16 % 16),
    hexDigit (n % 16)]

/-- Embeds `json.dumps`'s string escaping with `ensure_ascii=True`: escape
backslash, double quote, the named control escapes, other characters outside
the printable ASCII range 0x20..0x7e as `\uXXXX` (with surrogate pairs above
0xffff). -/
def escapeChar (c : Char) : String :=
  if c = '"' then "\\\""
  else if c = '\\' then "\\\\"
  else if c = '\n' then "\\n"
  else if c = '\t' then "\\t"
  else if c = '\r' then "\\r"
  else if c = Char.ofNat 8 then "\\b"
  else if c = Char.ofNat 12 then "\\f"
  else if 32 ≤ c.toNat ∧ c.toNat ≤ 126 then String.singleton c
  else if c.toNat ≤ 65535 then "\\u" ++ hex4 c.toNat
  else
    let n := c.toNat - 65536
    "\\u" ++ hex4 (55296 + n / 1024) ++ "\\u" ++ hex4 (56320 + n % 1024)

def escapeStr (s : String) : String := String.join (s.data.map escapeChar)

def renderJStr (s : String) : String := "\"" ++ escapeStr s ++ "\""

/-- Renders one JSON value at nesting depth 1 of an `indent=4` dump: a
non-empty array puts each element on its own line indented by 8 spaces,
with the closing bracket indented by 4. -/
def renderJVal : JVal → String
  | JVal.jstr s => renderJStr s
  | JVal.jbool true => "true"
  | JVal.jbool false => "false"
  | JVal.jarr [] => "[]"
  | JVal.jarr (x :: xs) =>
    "[\n        " ++
      String.intercalate ",\n        " ((x :: xs).map renderJStr) ++
      "\n    ]"

/-- Insertion step of the key sort performed by `sort_keys=True`. -/
def insertEntry (e : String × JVal) : List (String × JVal) → List (String × JVal)
  | [] => [e]
  | f :: r => if e.1 < f.1 then e :: f :: r else f :: insertEntry e r

/-- Sorts entries by key (code-point order, as Python's `sort_keys=True`;
the fourteen keys are pairwise distinct so stability is irrelevant). -/
def sortEntries : List (String × JVal) → List (String × JVal)
  | [] => []
  | e :: r => insertEntry e (sortEntries r)

/-- Embeds `".".join([str(i) for i in self.version])`. -/
def Solver.versionString (s : Solver) : String :=
  match (s.getattrD Key.version).val with
  | Val.vtup (a, b, c) => toString a ++ "." ++ toString b ++ "." ++ toString c
  | _ => ""

/-- The `info` dictionary of `Solver.to_json`, with keys already sorted as
`sort_keys=True` does. -/
def Solver.jsonEntries (s : Solver) : List (String × JVal) :=
  sortEntries
    [("name", JVal.jstr (s.getattrD Key.name).strD),
     ("version", JVal.jstr s.versionString),
     ("id", JVal.jstr s.effId),
     ("executable", JVal.jstr (s.getattrD Key.executable).strD),
     ("mznlib", JVal.jstr (s.getattrD Key.mznlib).strD),
     ("tags", JVal.jarr (s.getattrD Key.tags).strsD),
     ("stdFlags", JVal.jarr (s.getattrD Key.stdFlags).strsD),
     ("extraFlags", JVal.jarr (s.getattrD Key.extraFlags).strsD),
     ("supportsMzn", JVal.jbool (s.getattrD Key.supportsMzn).boolD),
     ("supportsFzn", JVal.jbool (s.getattrD Key.supportsFzn).boolD),
     ("needsSolns2Out", JVal.jbool (s.getattrD Key.needsSolns2Out).boolD),
     ("needsMznExecutable", JVal.jbool (s.getattrD Key.needsMznExecutable).boolD),
     ("needsStdlibDir", JVal.jbool (s.getattrD Key.needsStdlibDir).boolD),
     ("isGUIApplication", JVal.jbool (s.getattrD Key.isGUIApplication).boolD)]

/-- Embeds `json.dumps(info, sort_keys=True, indent=4)` for the top-level
object: each entry on its own line indented by 4 spaces, `": "` between key
and value, `,` after all but the last entry. -/
def renderEntries : List (String × JVal) → String
  | [] => "\x7b\x7d"
  | e :: es =>
    "\x7b\n    " ++
      String.intercalate ",\n    "
        ((e :: es).map (fun p => renderJStr p.1 ++ ": " ++ renderJVal p.2)) ++
      "\n\x7d"

/-- Embeds `Solver.to_json`. -/
def Solver.to_json (s : Solver) : String := renderEntries s.jsonEntries

/-! ### Scoped materialization: the `configuration` context manager -/

/-- An I/O failure during temporary-file creation, write or flush. -/
inductive IoErr where
  | ioError (msg : String)
deriving DecidableEq, Repr

/-- Name of the temporary file created by
`tempfile.NamedTemporaryFile(prefix="minizinc_solver_", suffix=".msc")`;
`rnd` is the random component chosen by the library. -/
def tmpFileName (rnd : String) : String :=
  "/tmp/" ++ ("minizinc_solver_" ++ (rnd ++ ".msc"))

/-- Filesystem state visible to the context manager: existing files as
(name, contents) pairs. -/
structure FS where
  files : List (String × String)
deriving DecidableEq, Repr

/-- Result of entering the `configuration` context manager (up to and
including `yield`'s argument): the yielded identity or a propagated I/O
error, the updated solver and filesystem, and the generator's local `file`
variable (`some` the created file's name, `none` when no artifact was
created by this call). -/
structure EnterResult where
  outcome : Except IoErr String
  solver : Solver
  fsAfter : FS
  created : Option String

/-- Embeds entry into `Solver.configuration()`: when `self._id is None`,
create the temporary file, write `self.to_json().encode()`, flush, and set
`self._id` to the file's name; otherwise change nothing.  Yields `self._id`.
`rnd` is the temp-file name oracle, `aAddr` the address of the fresh
`file.name` string object, and `io` injects an I/O failure at the
create/write/flush stage (which precedes the assignment to `self._id`, so a
failure leaves the solver untouched and propagates). -/
def Solver.configEnter (s : Solver) (fs : FS) (rnd : String) (aAddr : Nat)
    (io : Option IoErr) : EnterResult :=
  if (s.getattrD Key._id).val = Val.pynone then
    match io with
    | some e => ⟨Except.error e, s, fs, none⟩
    | none =>
      let fname := tmpFileName rnd
      let s' := s.setattr Key._id ⟨Val.str fname, aAddr⟩
      ⟨Except.ok fname, s', ⟨(fname, s.to_json) :: fs.files⟩, some fname⟩
  else
    ⟨Except.ok (s.getattrD Key._id).strD, s, fs, none⟩

/-- Embeds the `finally` block of `Solver.configuration()`: if this call
created an artifact, `file.close()` removes the temporary file and
`self._id = None` resets the identity; otherwise nothing happens. -/
def Solver.configExit (s : Solver) (fs : FS) (created : Option String) : Solver × FS :=
  match created with
  | none => (s, fs)
  | some fname => (s.setattr Key._id noneObj, ⟨fs.files.filter (fun p => p.1 != fname)⟩)

/-- Outcome of a Python block: normal completion or a raised exception. -/
inductive PyResult (β ε : Type) where
  | ok (b : β)
  | raised (e : ε)
deriving DecidableEq, Repr

/-- Result of running a whole `with solver.configuration() as y:` scope. -/
structure ScopeRun (β ε : Type) where
  outcome : Except IoErr (PyResult β ε)
  solver : Solver
  fsAfter : FS

/-- Embeds `with solver.configuration() as y: body`: enter, run the body on
the yielded identity (the body may mutate the solver and the filesystem and
may raise), then run the `finally` teardown on every body outcome. -/
def Solver.withConfiguration {β ε : Type} (s : Solver) (fs : FS) (rnd : String)
    (aAddr : Nat) (io : Option IoErr)
    (body : String → Solver → FS → PyResult β ε × Solver × FS) : ScopeRun β ε :=
  let er := s.configEnter fs rnd aAddr io
  match er.outcome with
  | Except.error e => ⟨Except.error e, er.solver, er.fsAfter⟩
  | Except.ok y =>
    let bres := body y er.solver er.fsAfter
    let fin := Solver.configExit bres.2.1 bres.2.2 er.created
    ⟨Except.ok bres.1, fin.1, fin.2⟩

/-! ### Solve forwarding: `Solver.solve` -/

/-- Outcome of `Solver.solve`: the driver's result, an exception raised by
the driver (passed through unmodified), or the `LookupError` raised when no
driver is bound. -/
inductive SolveOutcome (Res Err : Type) where
  | ok (r : Res)
  | driverRaised (e : Err)
  | lookupErr (msg : String)
deriving DecidableEq, Repr

/-- Address of a driver object (the non-`None` branch of
`if self.driver is not None`). -/
def Val.drvAddr : Val → Nat
  | Val.drv d => d
  | _ => 0

/-- Embeds `Solver.solve(instance, *args, **kwargs)`: if a driver is bound
(`self.driver is not None`), forward `self`, the instance and all extra
arguments unchanged to the driver's `solve` and return its result (or
propagate its exception) unchanged; otherwise raise
`LookupError("Solver is not linked to a MiniZinc driver")`.  The method
performs no assignment, so the solver state is returned unchanged. -/
def Solver.solve {Inst Args Res Err : Type}
    (impl : Nat → Solver → Inst → Args → PyResult Res Err)
    (s : Solver) (inst : Inst) (args : Args) : SolveOutcome Res Err × Solver :=
  match (s.getattrD Key.driver).val with
  | Val.pynone => (SolveOutcome.lookupErr "Solver is not linked to a MiniZinc driver", s)
  | v =>
    match impl v.drvAddr s inst args with
    | PyResult.ok r => (SolveOutcome.ok r, s)
    | PyResult.raised e => (SolveOutcome.driverRaised e, s)

/-- Lifts a driver call's outcome to a `solve` outcome. -/
def liftResult {Res Err : Type} : PyResult Res Err → SolveOutcome Res Err
  | PyResult.ok r => SolveOutcome.ok r
  | PyResult.raised e => SolveOutcome.driverRaised e

/-! ### Specification-side predicates and example states -/

/-- Non-empty sequence of decimal digits (one `\d+` group). -/
def isDigitStr (l : List Char) : Prop := l ≠ [] ∧ ∀ c ∈ l, c.isDigit = true

/-- The string (as a character list) contains a substring matching
`\d+\.\d+\.\d+`. -/
def hasVersionTriple (s : List Char) : Prop :=
  ∃ l d1 d2 d3 r, s = l ++ (d1 ++ '.' :: (d2 ++ '.' :: (d3 ++ r))) ∧
    isDigitStr d1 ∧ isDigitStr d2 ∧ isDigitStr d3

/-- The blank solver state (no attribute set). -/
def emptySolver : Solver := ⟨fun _ => none⟩

/-- Concrete configuration used by the witnesses: `Solver("Gecode", "6.3.0",
"gecode")` with a bound driver (address 21). -/
def gecodeSolver : Solver :=
  (Solver.init "Gecode" "6.3.0" "gecode" none (some 21)).getD emptySolver

/-- Concrete configuration constructed while the process-global default
driver is absent. -/
def gecodeNoDriver : Solver :=
  (Solver.init "Gecode" "6.3.0" "gecode" none none).getD emptySolver

/-- `gecodeSolver` after an explicit identity has been stored in `_id`. -/
def gecodeWithId : Solver :=
  gecodeSolver.setattr Key._id ⟨Val.str "org.gecode.gecode", 50⟩

/-- Concrete filesystem used by the witnesses. -/
def exampleFS : FS := ⟨[("/tmp/other.msc", "x")]⟩

/-- Concrete scope body that completes normally without touching anything. -/
def exampleBody : String → Solver → FS → PyResult Nat Nat × Solver × FS :=
  fun _ s fs => (PyResult.ok 0, s, fs)

/-- Concrete scope body that raises. -/
def raisingBody : String → Solver → FS → PyResult Nat Nat × Solver × FS :=
  fun _ s fs => (PyResult.raised 7, s, fs)

/-- Concrete driver implementation used by the witnesses. -/
def exampleImpl : Nat → Solver → Nat → Nat → PyResult Nat Nat :=
  fun d _ inst args => PyResult.ok (d + inst + args)

/-! ### Helper lemmas about `Solver.setattr` -/

theorem id_not_configKey : Key._id ∉ configKeys := by decide

theorem name_not_configKey : Key.name ∉ configKeys := by decide

theorem driver_not_configKey : Key.driver ∉ configKeys := by decide

/-- Storing under `k` makes the slot `k` hold exactly the new object. -/
theorem setattr_attrs_self (s : Solver) (k : Key) (v : Obj) :
    (s.setattr k v).attrs k = some v := by
  unfold Solver.setattr
  by_cases h : k ∈ configKeys ∧ (s.getattrD k).addr ≠ v.addr <;> simp [h]

/-- When the dirty-tracking condition fires, `_id` is cleared to `None`. -/
theorem setattr_clears_id (s : Solver) (k : Key) (v : Obj)
    (hk : k ∈ configKeys) (ha : (s.getattrD k).addr ≠ v.addr) :
    (s.setattr k v).attrs Key._id = some noneObj := by
  have hne : Key._id ≠ k := fun h => id_not_configKey (h ▸ hk)
  unfold Solver.setattr
  simp [hk, ha, hne]

/-- When the dirty-tracking condition does not fire and the key written is
not `_id` itself, the `_id` slot is untouched. -/
theorem setattr_preserves_id (s : Solver) (k : Key) (v : Obj)
    (h : ¬(k ∈ configKeys ∧ (s.getattrD k).addr ≠ v.addr)) (hk : Key._id ≠ k) :
    (s.setattr k v).attrs Key._id = s.attrs Key._id := by
  unfold Solver.setattr
  simp [h, hk]

/-- A slot other than the written key and `_id` is never changed. -/
theorem setattr_attrs_other (s : Solver) (k : Key) (v : Obj) (k2 : Key)
    (h2 : k2 ≠ k) (hid : k2 ≠ Key._id) :
    (s.setattr k v).attrs k2 = s.attrs k2 := by
  unfold Solver.setattr
  by_cases h : k ∈ configKeys ∧ (s.getattrD k).addr ≠ v.addr <;> simp [h, h2, hid]

/-! ### Helper lemmas for the version-string search -/

theorem takeWhile_all_append (p : Char → Bool) (d : List Char) (x : Char) (r : List Char)
    (hd : ∀ c ∈ d, p c = true) (hx : p x = false) :
    (d ++ x :: r).takeWhile p = d := by
  induction d with
  | nil => simp [List.takeWhile_cons, hx]
  | cons a t ih =>
    have ha : p a = true := hd a (List.mem_cons_self a t)
    have ht : ∀ c ∈ t, p c = true := fun c hc => hd c (List.mem_cons_of_mem a hc)
    simp [List.takeWhile_cons, ha, ih ht]

theorem dropWhile_all_append (p : Char → Bool) (d : List Char) (x : Char) (r : List Char)
    (hd : ∀ c ∈ d, p c = true) (hx : p x = false) :
    (d ++ x :: r).dropWhile p = x :: r := by
  induction d with
  | nil => simp [List.dropWhile_cons, hx]
  | cons a t ih =>
    have ha : p a = true := hd a (List.mem_cons_self a t)
    have ht : ∀ c ∈ t, p c = true := fun c hc => hd c (List.mem_cons_of_mem a hc)
    simp [List.dropWhile_cons, ha, ih ht]

theorem dot_not_digit : ('.').isDigit = false := by decide

/-- A successful anchored match decomposes the input as the pattern
requires, with all three groups non-empty digit runs. -/
theorem matchTripleAt_sound (cs g1 g2 g3 : List Char)
    (h : matchTripleAt cs = some (g1, g2, g3)) :
    ∃ r, cs = g1 ++ '.' :: (g2 ++ '.' :: (g3 ++ r)) ∧
      isDigitStr g1 ∧ isDigitStr g2 ∧ isDigitStr g3 := by
  unfold matchTripleAt at h
  by_cases h1 : (cs.takeWhile Char.isDigit).isEmpty
  · rw [if_pos h1] at h; exact absurd h (by simp)
  · rw [if_neg h1] at h
    cases hdw : cs.dropWhile Char.isDigit with
    | nil => rw [hdw] at h; exact absurd h (by simp)
    | cons x r2 =>
      rw [hdw] at h
      by_cases hx : x = '.'
      · subst hx
        simp only at h
        by_cases h2 : (r2.takeWhile Char.isDigit).isEmpty
        · rw [if_pos h2] at h; exact absurd h (by simp)
        · rw [if_neg h2] at h
          cases hdw2 : r2.dropWhile Char.isDigit with
          | nil => rw [hdw2] at h; exact absurd h (by simp)
          | cons y r4 =>
            rw [hdw2] at h
            by_cases hy : y = '.'
            · subst hy
              simp only at h
              by_cases h3 : (r4.takeWhile Char.isDigit).isEmpty
              · rw [if_pos h3] at h; exact absurd h (by simp)
              · rw [if_neg h3] at h
                injection h with h'
                simp only [Prod.mk.injEq] at h'
                obtain ⟨e1, e2, e3⟩ := h'
                subst e1; subst e2; subst e3
                refine ⟨r4.dropWhile Char.isDigit, ?_, ⟨?_, ?_⟩, ⟨?_, ?_⟩, ⟨?_, ?_⟩⟩
                · rw [List.takeWhile_append_dropWhile, ← hdw2,
                    List.takeWhile_append_dropWhile, ← hdw,
                    List.takeWhile_append_dropWhile]
                · intro hnil; rw [hnil] at h1; exact h1 rfl
                · exact fun c hc => List.mem_takeWhile_imp hc
                · intro hnil; rw [hnil] at h2; exact h2 rfl
                · exact fun c hc => List.mem_takeWhile_imp hc
                · intro hnil; rw [hnil] at h3; exact h3 rfl
                · exact fun c hc => List.mem_takeWhile_imp hc
            · exact absurd h (by simp [hy])
      · exact absurd h (by simp [hx])

/-- A decomposition matching the pattern makes the anchored match succeed
(the third group may absorb further digits from `r`, but it stays
non-empty). -/
theorem matchTripleAt_isSome_of_decomp (d1 d2 d3 r : List Char)
    (h1 : isDigitStr d1) (h2 : isDigitStr d2) (h3 : isDigitStr d3) :
    (matchTripleAt (d1 ++ '.' :: (d2 ++ '.' :: (d3 ++ r)))).isSome := by
  obtain ⟨n1, a1⟩ := h1
  obtain ⟨n2, a2⟩ := h2
  obtain ⟨n3, a3⟩ := h3
  have e1 : (d1 ++ '.' :: (d2 ++ '.' :: (d3 ++ r))).takeWhile Char.isDigit = d1 :=
    takeWhile_all_append _ _ _ _ a1 dot_not_digit
  have e1' : (d1 ++ '.' :: (d2 ++ '.' :: (d3 ++ r))).dropWhile Char.isDigit
      = '.' :: (d2 ++ '.' :: (d3 ++ r)) :=
    dropWhile_all_append _ _ _ _ a1 dot_not_digit
  have e2 : (d2 ++ '.' :: (d3 ++ r)).takeWhile Char.isDigit = d2 :=
    takeWhile_all_append _ _ _ _ a2 dot_not_digit
  have e2' : (d2 ++ '.' :: (d3 ++ r)).dropWhile Char.isDigit = '.' :: (d3 ++ r) :=
    dropWhile_all_append _ _ _ _ a2 dot_not_digit
  have ne1 : d1.isEmpty = false := by
    cases d1 with
    | nil => exact absurd rfl n1
    | cons a t => rfl
  have ne2 : d2.isEmpty = false := by
    cases d2 with
    | nil => exact absurd rfl n2
    | cons a t => rfl
  have ne3 : ((d3 ++ r).takeWhile Char.isDigit).isEmpty = false := by
    cases d3 with
    | nil => exact absurd rfl n3
    | cons a t =>
      have ha : a.isDigit = true := a3 a (List.mem_cons_self a t)
      simp [List.takeWhile_cons, ha]
  unfold matchTripleAt
  rw [e1, e1', ne1]
  simp only [Bool.false_eq_true, if_false]
  rw [e2, e2', ne2]
  simp only [Bool.false_eq_true, if_false]
  rw [ne3]
  simp

theorem reSearchTriple_isSome_of_match (t : List Char)
    (h : (matchTripleAt t).isSome) : (reSearchTriple t).isSome := by
  cases t with
  | nil => exact absurd h (by decide)
  | cons c rest =>
    simp only [reSearchTriple]
    cases hm : matchTripleAt (c :: rest) with
    | some g => simp
    | none => rw [hm] at h; exact absurd h (by simp)

theorem reSearchTriple_isSome_append (l t : List Char)
    (h : (reSearchTriple t).isSome) : (reSearchTriple (l ++ t)).isSome := by
  induction l with
  | nil => simpa using h
  | cons c l2 ih =>
    show (reSearchTriple (c :: (l2 ++ t))).isSome
    simp only [reSearchTriple]
    cases hm : matchTripleAt (c :: (l2 ++ t)) with
    | some g => simp
    | none => simpa using ih

/-- Search success yields an occurrence of the pattern in the string. -/
theorem reSearchTriple_sound (s : List Char) (h : (reSearchTriple s).isSome) :
    hasVersionTriple s := by
  induction s with
  | nil => exact absurd h (by decide)
  | cons c rest ih =>
    by_cases hm : (matchTripleAt (c :: rest)).isSome
    · obtain ⟨⟨g1, g2, g3⟩, hg⟩ := Option.isSome_iff_exists.mp hm
      obtain ⟨r, hdec, hd1, hd2, hd3⟩ := matchTripleAt_sound _ _ _ _ hg
      exact ⟨[], g1, g2, g3, r, by simpa using hdec, hd1, hd2, hd3⟩
    · have hm' : matchTripleAt (c :: rest) = none := Option.not_isSome_iff_eq_none.mp hm
      have h' : (reSearchTriple rest).isSome := by
        simp only [reSearchTriple] at h
        rw [hm'] at h
        simpa using h
      obtain ⟨l, d1, d2, d3, r, e, x1, x2, x3⟩ := ih h'
      exact ⟨c :: l, d1, d2, d3, r, by simp [e], x1, x2, x3⟩

/-- An occurrence of the pattern makes the search succeed. -/
theorem reSearchTriple_complete (s : List Char) (h : hasVersionTriple s) :
    (reSearchTriple s).isSome := by
  obtain ⟨l, d1, d2, d3, r, e, x1, x2, x3⟩ := h
  subst e
  exact reSearchTriple_isSome_append l _
    (reSearchTriple_isSome_of_match _ (matchTripleAt_isSome_of_decomp d1 d2 d3 r x1 x2 x3))

/-- The groups returned by the search are the groups of an actual
occurrence of the pattern in the input. -/
theorem reSearchTriple_groups (s g1 g2 g3 : List Char)
    (h : reSearchTriple s = some (g1, g2, g3)) :
    ∃ l r, s = l ++ (g1 ++ '.' :: (g2 ++ '.' :: (g3 ++ r))) ∧
      isDigitStr g1 ∧ isDigitStr g2 ∧ isDigitStr g3 := by
  induction s with
  | nil => simp [reSearchTriple] at h
  | cons c rest ih =>
    simp only [reSearchTriple] at h
    cases hm : matchTripleAt (c :: rest) with
    | some g =>
      rw [hm] at h
      simp only [Option.some.injEq] at h
      obtain ⟨r, hdec, hd1, hd2, hd3⟩ := matchTripleAt_sound _ _ _ _ (h ▸ hm)
      exact ⟨[], r, by simpa using hdec, hd1, hd2, hd3⟩
    | none =>
      rw [hm] at h
      obtain ⟨l, r, e, x1, x2, x3⟩ := ih h
      exact ⟨c :: l, r, by simp [e], x1, x2, x3⟩

/-! ### Helper lemmas about the identity and the scope -/

/-- With `_id` unset, the effective identity is the derived form. -/
theorem effId_derived (s : Solver) (n : String)
    (hid : (s.getattrD Key._id).val = Val.pynone)
    (hn : (s.getattrD Key.name).val = Val.str n) :
    s.effId = "org.minizinc.python." ++ pyLower n := by
  unfold Solver.effId
  rw [if_pos hid]
  unfold Obj.strD
  rw [hn]

/-- Reading the `_id` slot right after an assignment to a different key:
cleared to `None` exactly when the dirty-tracking condition fires. -/
theorem attrs_setattr_id (s : Solver) (k : Key) (v : Obj) (h : Key._id ≠ k) :
    (s.setattr k v).attrs Key._id =
      if k ∈ configKeys ∧ (s.getattrD k).addr ≠ v.addr then some noneObj
      else s.attrs Key._id := by
  unfold Solver.setattr
  by_cases hc : k ∈ configKeys ∧ (s.getattrD k).addr ≠ v.addr <;> simp [hc, h]

/-- With `_id` set to a string, the effective identity is that string. -/
theorem effId_explicit (s : Solver) (i : String) (a : Nat)
    (hid : s.getattrD Key._id = ⟨Val.str i, a⟩) : s.effId = i := by
  unfold Solver.effId
  rw [hid]
  simp [Obj.strD]

/-- Deleting a file name from the filesystem removes every entry with that
name. -/
theorem not_mem_map_fst_filter_ne (l : List (String × String)) (fname : String) :
    fname ∉ (l.filter (fun p => p.1 != fname)).map Prod.fst := by
  intro h
  obtain ⟨p, hp, he⟩ := List.mem_map.mp h
  have := (List.mem_filter.mp hp).2
  rw [he] at this
  simp at this

/-- Running a scope on a configuration with `_id` unset: enter materializes
the artifact, the body runs on its path, and the teardown clears `_id` and
deletes the file from whatever state the body leaves. -/
theorem withConfiguration_eq_of_unset (β ε : Type) (s : Solver) (fs : FS)
    (rnd : String) (aAddr : Nat)
    (body : String → Solver → FS → PyResult β ε × Solver × FS)
    (hid : (s.getattrD Key._id).val = Val.pynone) :
    s.withConfiguration fs rnd aAddr none body =
      ⟨Except.ok (body (tmpFileName rnd)
          (s.setattr Key._id ⟨Val.str (tmpFileName rnd), aAddr⟩)
          ⟨(tmpFileName rnd, s.to_json) :: fs.files⟩).1,
        (body (tmpFileName rnd)
          (s.setattr Key._id ⟨Val.str (tmpFileName rnd), aAddr⟩)
          ⟨(tmpFileName rnd, s.to_json) :: fs.files⟩).2.1.setattr Key._id noneObj,
        ⟨((body (tmpFileName rnd)
          (s.setattr Key._id ⟨Val.str (tmpFileName rnd), aAddr⟩)
          ⟨(tmpFileName rnd, s.to_json) :: fs.files⟩).2.2).files.filter
            (fun p => p.1 != tmpFileName rnd)⟩⟩ := by
  simp [Solver.withConfiguration, Solver.configEnter, hid, Solver.configExit]

/-- Running a scope on a configuration with an explicit identity: the body
runs on that identity and the teardown does nothing. -/
theorem withConfiguration_eq_of_set (β ε : Type) (s : Solver) (fs : FS)
    (rnd : String) (aAddr : Nat)
    (body : String → Solver → FS → PyResult β ε × Solver × FS)
    (i : String) (a : Nat) (hid : s.getattrD Key._id = ⟨Val.str i, a⟩) :
    s.withConfiguration fs rnd aAddr none body =
      ⟨Except.ok (body i s fs).1, (body i s fs).2.1, (body i s fs).2.2⟩ := by
  simp [Solver.withConfiguration, Solver.configEnter, hid, Obj.strD,
    Solver.configExit]

/-- `solve` with `self.driver is None` raises the lookup error. -/
theorem solve_driver_none {Inst Args Res Err : Type}
    (impl : Nat → Solver → Inst → Args → PyResult Res Err)
    (s : Solver) (inst : Inst) (args : Args)
    (h : (s.getattrD Key.driver).val = Val.pynone) :
    s.solve impl inst args =
      (SolveOutcome.lookupErr "Solver is not linked to a MiniZinc driver", s) := by
  simp [Solver.solve, h]

/-- `solve` with a bound driver forwards to the driver's `solve` and lifts
its outcome unchanged. -/
theorem solve_driver_some {Inst Args Res Err : Type}
    (impl : Nat → Solver → Inst → Args → PyResult Res Err)
    (s : Solver) (inst : Inst) (args : Args) (d : Nat)
    (h : (s.getattrD Key.driver).val = Val.drv d) :
    s.solve impl inst args = (liftResult (impl d s inst args), s) := by
  have hr : (Val.drv d).drvAddr = d := rfl
  simp only [Solver.solve, h, hr]
  cases h2 : impl d s inst args <;> simp [liftResult]

/-! ### Claim theorems -/

/-- C8: for every version string containing a substring matching
`\d+\.\d+\.\d+`, construction succeeds and the stored version is exactly
the integer triple of an occurrence of the pattern in the string (the
leftmost match, whose groups `reSearchTriple` returns); it is a triple by
type, so it always has exactly three integer components.  For every version
string containing no such substring, construction fails (`re.search`
returns `None` and `match.groups()` raises). -/
theorem init_version_parsing (nm vs exe : String) (da dd : Option Nat) :
    (hasVersionTriple vs.data ↔ (Solver.init nm vs exe da dd).isSome) ∧
    (∀ sol, Solver.init nm vs exe da dd = some sol →
      ∃ l d1 d2 d3 r, vs.data = l ++ (d1 ++ '.' :: (d2 ++ '.' :: (d3 ++ r))) ∧
        isDigitStr d1 ∧ isDigitStr d2 ∧ isDigitStr d3 ∧
        sol.attrs Key.version =
          some ⟨Val.vtup (digitsToNat d1, digitsToNat d2, digitsToNat d3), 2⟩) := by
  constructor
  · constructor
    · intro h
      obtain ⟨⟨g1, g2, g3⟩, hg⟩ :=
        Option.isSome_iff_exists.mp (reSearchTriple_complete _ h)
      simp [Solver.init, hg]
    · intro h
      cases hr : reSearchTriple vs.data with
      | none => simp [Solver.init, hr] at h
      | some g => exact reSearchTriple_sound _ (by rw [hr]; rfl)
  · intro sol hsol
    cases hr : reSearchTriple vs.data with
    | none => simp [Solver.init, hr] at hsol
    | some g =>
      obtain ⟨g1, g2, g3⟩ := g
      obtain ⟨l, r, e, x1, x2, x3⟩ := reSearchTriple_groups _ _ _ _ hr
      refine ⟨l, g1, g2, g3, r, e, x1, x2, x3, ?_⟩
      simp only [Solver.init, hr, Option.some.injEq] at hsol
      subst hsol
      simp [setattr_attrs_other, setattr_attrs_self]

/-- Witness for C8, discharging the pattern hypothesis at `"6.3.0"`. -/
theorem init_version_parsing_witness :
    (Solver.init "Gecode" "6.3.0" "gecode" none none).isSome :=
  (init_version_parsing "Gecode" "6.3.0" "gecode" none none).1.mp
    ⟨[], ['6'], ['3'], ['0'], [], by decide, ⟨by decide, by decide⟩,
      ⟨by decide, by decide⟩, ⟨by decide, by decide⟩⟩

/-- C2: assigning a configuration-affecting field a value that differs from
the currently stored value clears a previously set `_id` back to `None`
(an address determining the stored value, objects with different values are
distinct, so `is not` holds), while assigning to `name` or `driver` leaves
the `_id` slot untouched. -/
theorem setattr_field_mutation :
    (∀ (s : Solver) (k : Key) (v : Obj), k ∈ configKeys →
      ((s.getattrD k).addr = v.addr → (s.getattrD k).val = v.val) →
      v.val ≠ (s.getattrD k).val →
      (s.setattr k v).attrs Key._id = some noneObj) ∧
    (∀ (s : Solver) (v : Obj),
      (s.setattr Key.name v).attrs Key._id = s.attrs Key._id) ∧
    (∀ (s : Solver) (v : Obj),
      (s.setattr Key.driver v).attrs Key._id = s.attrs Key._id) := by
  refine ⟨fun s k v hk hwf hne => ?_, fun s v => ?_, fun s v => ?_⟩
  · exact setattr_clears_id s k v hk (fun ha => hne (hwf ha).symm)
  · exact setattr_preserves_id s Key.name v
      (fun hc => name_not_configKey hc.1) (by decide)
  · exact setattr_preserves_id s Key.driver v
      (fun hc => driver_not_configKey hc.1) (by decide)

/-- Witness for C2: writing a different executable string clears the
previously set explicit identity of `gecodeWithId`. -/
theorem setattr_field_mutation_witness :
    (gecodeWithId.setattr Key.executable ⟨Val.str "other", 60⟩).attrs Key._id
      = some noneObj :=
  setattr_field_mutation.1 gecodeWithId Key.executable ⟨Val.str "other", 60⟩
    (by decide) (by decide) (by decide)

/-- C10: the dirty-tracking comparison is `is not` (address inequality),
not value equality: a value equal to the stored one but held by a distinct
object still clears `_id` (no constraint relates `v.val` and `o.val` in the
first conjunct), and `_id` is preserved exactly when the very same object is
re-assigned. -/
theorem setattr_is_comparison : ∀ (s : Solver) (k : Key) (v o : Obj),
    k ∈ configKeys → s.attrs k = some o →
    ((o.addr ≠ v.addr → (s.setattr k v).attrs Key._id = some noneObj) ∧
     (o.addr = v.addr → (s.setattr k v).attrs Key._id = s.attrs Key._id)) := by
  intro s k v o hk ho
  have hg : s.getattrD k = o := by simp [Solver.getattrD, ho]
  constructor
  · intro hne
    exact setattr_clears_id s k v hk (by rw [hg]; exact hne)
  · intro heq
    refine setattr_preserves_id s k v (fun hc => ?_)
      (fun h => id_not_configKey (h ▸ hk))
    exact hc.2 (by rw [hg, heq])

/-- Witness for C10: a freshly built empty list (address 70) equal in value
to the stored `tags` (address 5) still clears the identity, while
re-assigning the stored object itself preserves it. -/
theorem setattr_is_comparison_witness :
    ((gecodeWithId.setattr Key.tags ⟨Val.strs [], 70⟩).attrs Key._id
      = some noneObj) ∧
    ((gecodeWithId.setattr Key.tags ⟨Val.strs [], 5⟩).attrs Key._id
      = gecodeWithId.attrs Key._id) :=
  ⟨(setattr_is_comparison gecodeWithId Key.tags ⟨Val.strs [], 70⟩ ⟨Val.strs [], 5⟩
      (by decide) (by decide)).1 (by decide),
   (setattr_is_comparison gecodeWithId Key.tags ⟨Val.strs [], 5⟩ ⟨Val.strs [], 5⟩
      (by decide) (by decide)).2 rfl⟩

/-- C4: the `id` property returns the explicitly stored identity when one
is set, and otherwise exactly `"org.minizinc.python."` concatenated with
the lowercased name; for a configuration freshly constructed with name
`"Gecode"` it returns `"org.minizinc.python.gecode"`.  `Solver.effId` is a
pure total function of the state: no side effects, no error conditions. -/
theorem id_property_spec :
    (∀ (s : Solver) (n : String), (s.getattrD Key._id).val = Val.pynone →
      (s.getattrD Key.name).val = Val.str n →
      s.effId = "org.minizinc.python." ++ pyLower n) ∧
    (∀ (s : Solver) (i : String) (a : Nat),
      s.getattrD Key._id = ⟨Val.str i, a⟩ → s.effId = i) ∧
    (∀ (vs exe : String) (da dd : Option Nat) (sol : Solver),
      Solver.init "Gecode" vs exe da dd = some sol →
      sol.effId = "org.minizinc.python.gecode") := by
  refine ⟨effId_derived, effId_explicit, ?_⟩
  intro vs exe da dd sol hsol
  cases hr : reSearchTriple vs.data with
  | none => simp [Solver.init, hr] at hsol
  | some g =>
    obtain ⟨g1, g2, g3⟩ := g
    simp only [Solver.init, hr, Option.some.injEq] at hsol
    subst hsol
    simp [Solver.effId, Solver.getattrD, attrs_setattr_id, setattr_attrs_other,
      setattr_attrs_self, configKeys, noneObj, Obj.strD]
    decide

/-- Witness for C4 on the freshly constructed `gecodeSolver`. -/
theorem id_property_spec_witness :
    gecodeSolver.effId = "org.minizinc.python.gecode" :=
  id_property_spec.2.2 "6.3.0" "gecode" none (some 21) gecodeSolver rfl

/-- C5: `to_json` renders a JSON object whose keys are exactly the
fourteen configuration keys in lexicographically sorted (code-point)
order, with `version` formatted `"<major>.<minor>.<patch>"` and `id` the
effective identity; the rendering is a pure total function of the state
with the fixed `indent=4` layout of `renderEntries`, so serializing the
same unmutated configuration twice is byte-identical and never fails. -/
theorem to_json_spec (s : Solver) :
    (s.jsonEntries.map Prod.fst =
      ["executable", "extraFlags", "id", "isGUIApplication", "mznlib", "name",
       "needsMznExecutable", "needsSolns2Out", "needsStdlibDir", "stdFlags",
       "supportsFzn", "supportsMzn", "tags", "version"]) ∧
    List.Chain' (fun x y => x < y) (s.jsonEntries.map Prod.fst) ∧
    (∀ a b c : Nat, (s.getattrD Key.version).val = Val.vtup (a, b, c) →
      List.lookup "version" s.jsonEntries =
        some (JVal.jstr (toString a ++ "." ++ toString b ++ "." ++ toString c))) ∧
    List.lookup "id" s.jsonEntries = some (JVal.jstr s.effId) ∧
    s.to_json = renderEntries s.jsonEntries := by
  have hsorted : s.jsonEntries =
      [("executable", JVal.jstr (s.getattrD Key.executable).strD),
       ("extraFlags", JVal.jarr (s.getattrD Key.extraFlags).strsD),
       ("id", JVal.jstr s.effId),
       ("isGUIApplication", JVal.jbool (s.getattrD Key.isGUIApplication).boolD),
       ("mznlib", JVal.jstr (s.getattrD Key.mznlib).strD),
       ("name", JVal.jstr (s.getattrD Key.name).strD),
       ("needsMznExecutable", JVal.jbool (s.getattrD Key.needsMznExecutable).boolD),
       ("needsSolns2Out", JVal.jbool (s.getattrD Key.needsSolns2Out).boolD),
       ("needsStdlibDir", JVal.jbool (s.getattrD Key.needsStdlibDir).boolD),
       ("stdFlags", JVal.jarr (s.getattrD Key.stdFlags).strsD),
       ("supportsFzn", JVal.jbool (s.getattrD Key.supportsFzn).boolD),
       ("supportsMzn", JVal.jbool (s.getattrD Key.supportsMzn).boolD),
       ("tags", JVal.jarr (s.getattrD Key.tags).strsD),
       ("version", JVal.jstr s.versionString)] := by
    simp +decide [Solver.jsonEntries, sortEntries, insertEntry]
  refine ⟨?_, ?_, ?_, ?_, rfl⟩
  · rw [hsorted]
    rfl
  · rw [hsorted]
    simp +decide [List.chain'_cons]
  · intro a b c h
    rw [hsorted]
    simp [List.lookup, Solver.versionString, h]
  · rw [hsorted]
    rfl

/-- Witness for C5: the version entry of the concrete `gecodeSolver`. -/
theorem to_json_spec_witness :
    List.lookup "version" gecodeSolver.jsonEntries =
      some (JVal.jstr (toString 6 ++ "." ++ toString 3 ++ "." ++ toString 0)) :=
  (to_json_spec gecodeSolver).2.2.1 6 3 0 (by decide)

/-- C3: entering scoped materialization with `_id` unset creates the
temporary file named by the tempfile library — a uniquely named file (fresh
by the tempfile contract, the stated freshness hypothesis) whose name
contains the prefix `"minizinc_solver_"` and ends in `".msc"` — writes the
serialized JSON document into it (its presence in the filesystem models the
completed write and flush), sets `_id` to that path for the scope and
yields the path; with an explicit identity already set, nothing is created
and that identity is yielded with the state unchanged. -/
theorem configEnter_materializes (s : Solver) (fs : FS) (rnd : String) (aAddr : Nat) :
    ((s.getattrD Key._id).val = Val.pynone →
      (s.configEnter fs rnd aAddr none).outcome = Except.ok (tmpFileName rnd) ∧
      (s.configEnter fs rnd aAddr none).created = some (tmpFileName rnd) ∧
      (∃ dir tail, tmpFileName rnd = dir ++ ("minizinc_solver_" ++ tail) ∧
        ∃ stem, tmpFileName rnd = stem ++ ".msc") ∧
      (s.configEnter fs rnd aAddr none).fsAfter.files
        = (tmpFileName rnd, s.to_json) :: fs.files ∧
      (tmpFileName rnd ∉ fs.files.map Prod.fst →
        (((s.configEnter fs rnd aAddr none).fsAfter.files.map Prod.fst).count
          (tmpFileName rnd)) = 1) ∧
      (s.configEnter fs rnd aAddr none).solver.attrs Key._id
        = some ⟨Val.str (tmpFileName rnd), aAddr⟩) ∧
    (∀ i a, s.getattrD Key._id = ⟨Val.str i, a⟩ →
      s.configEnter fs rnd aAddr none = ⟨Except.ok i, s, fs, none⟩) := by
  constructor
  · intro hid
    have he : s.configEnter fs rnd aAddr none =
        ⟨Except.ok (tmpFileName rnd),
          s.setattr Key._id ⟨Val.str (tmpFileName rnd), aAddr⟩,
          ⟨(tmpFileName rnd, s.to_json) :: fs.files⟩, some (tmpFileName rnd)⟩ := by
      simp [Solver.configEnter, hid]
    refine ⟨by rw [he], by rw [he], ?_, by rw [he], ?_, ?_⟩
    · exact ⟨"/tmp/", rnd ++ ".msc", rfl,
        "/tmp/" ++ ("minizinc_solver_" ++ rnd), by
          simp [tmpFileName, String.append_assoc]⟩
    · intro hnotin
      rw [he]
      simp only [List.map_cons]
      rw [List.count_cons_self, List.count_eq_zero.mpr hnotin]
    · rw [he]
      exact setattr_attrs_self s Key._id ⟨Val.str (tmpFileName rnd), aAddr⟩
  · intro i a hid
    simp [Solver.configEnter, hid, Obj.strD]

/-- Witness for C3: entering on the freshly constructed `gecodeSolver`
materializes the artifact, and entering on `gecodeWithId` yields the
existing identity unchanged. -/
theorem configEnter_materializes_witness :
    ((gecodeSolver.configEnter exampleFS "r4nd" 99 none).fsAfter.files
      = (tmpFileName "r4nd", gecodeSolver.to_json) :: exampleFS.files) ∧
    (gecodeWithId.configEnter exampleFS "r4nd" 99 none
      = ⟨Except.ok "org.gecode.gecode", gecodeWithId, exampleFS, none⟩) :=
  ⟨(((configEnter_materializes gecodeSolver exampleFS "r4nd" 99).1
      (by decide)).2.2.2).1,
   (configEnter_materializes gecodeWithId exampleFS "r4nd" 99).2
      "org.gecode.gecode" 50 (by decide)⟩

/-- C6: an I/O failure during temporary-file creation/write/flush (which
in the source precedes the assignment `self._id = file.name`) propagates
as the error to the caller, with the solver — in particular its still-unset
`_id` — and the filesystem exactly as before the call, so the identity
never references the failed artifact. -/
theorem configEnter_io_failure (s : Solver) (fs : FS) (rnd : String) (aAddr : Nat)
    (e : IoErr) (hid : (s.getattrD Key._id).val = Val.pynone) :
    s.configEnter fs rnd aAddr (some e) = ⟨Except.error e, s, fs, none⟩ := by
  simp [Solver.configEnter, hid]

/-- Witness for C6 with a concrete failing entry. -/
theorem configEnter_io_failure_witness :
    gecodeSolver.configEnter exampleFS "r4nd" 99 (some (IoErr.ioError "disk full"))
      = ⟨Except.error (IoErr.ioError "disk full"), gecodeSolver, exampleFS, none⟩ :=
  configEnter_io_failure gecodeSolver exampleFS "r4nd" 99
    (IoErr.ioError "disk full") (by decide)

/-- C1: whether the scope body completes normally or raises, exiting a
scope whose entry created an artifact closes and removes it (its name is
absent from the final filesystem) and resets `_id` to `None`, so the
effective identity resolves to the derived form again; when an explicit
identity existed at entry, no artifact is created and the identity and
filesystem are exactly what the body left — the entire run is the body's
run on the existing identity. -/
theorem withConfiguration_teardown (β ε : Type) (s : Solver) (fs : FS)
    (rnd : String) (aAddr : Nat)
    (body : String → Solver → FS → PyResult β ε × Solver × FS) :
    ((s.getattrD Key._id).val = Val.pynone →
      ((s.withConfiguration fs rnd aAddr none body).solver.attrs Key._id
          = some noneObj ∧
       tmpFileName rnd ∉
          (s.withConfiguration fs rnd aAddr none body).fsAfter.files.map Prod.fst ∧
       (∀ n, ((s.withConfiguration fs rnd aAddr none body).solver.getattrD
            Key.name).val = Val.str n →
          (s.withConfiguration fs rnd aAddr none body).solver.effId
            = "org.minizinc.python." ++ pyLower n))) ∧
    (∀ i a, s.getattrD Key._id = ⟨Val.str i, a⟩ →
      s.withConfiguration fs rnd aAddr none body =
        ⟨Except.ok (body i s fs).1, (body i s fs).2.1, (body i s fs).2.2⟩) := by
  constructor
  · intro hid
    rw [withConfiguration_eq_of_unset β ε s fs rnd aAddr body hid]
    refine ⟨setattr_attrs_self _ Key._id noneObj, not_mem_map_fst_filter_ne _ _, ?_⟩
    intro n hn
    refine effId_derived _ n ?_ hn
    simp [Solver.getattrD, setattr_attrs_self, noneObj]
  · exact fun i a hid => withConfiguration_eq_of_set β ε s fs rnd aAddr body i a hid

/-- Witness for C1: a raising body on the freshly constructed solver still
gets `_id` reset, and a scope on a solver with an explicit identity is
exactly the body's run. -/
theorem withConfiguration_teardown_witness :
    ((gecodeSolver.withConfiguration exampleFS "r4nd" 99 none raisingBody).solver.attrs
        Key._id = some noneObj) ∧
    (gecodeWithId.withConfiguration exampleFS "r4nd" 99 none exampleBody =
      ⟨Except.ok (exampleBody "org.gecode.gecode" gecodeWithId exampleFS).1,
        (exampleBody "org.gecode.gecode" gecodeWithId exampleFS).2.1,
        (exampleBody "org.gecode.gecode" gecodeWithId exampleFS).2.2⟩) :=
  ⟨((withConfiguration_teardown Nat Nat gecodeSolver exampleFS "r4nd" 99
      raisingBody).1 (by decide)).1,
   (withConfiguration_teardown Nat Nat gecodeWithId exampleFS "r4nd" 99
      exampleBody).2 "org.gecode.gecode" 50 (by decide)⟩

/-- C7: with no driver bound, `solve` raises
`LookupError("Solver is not linked to a MiniZinc driver")` and returns the
state unchanged without invoking the driver (the outcome is independent of
`impl`, and the model performs no I/O); with a driver bound it forwards
`self`, the instance and all extra arguments unchanged to the driver's
`solve`, whose result is returned — and whose raised exception is
propagated — unmodified, the state again unchanged. -/
theorem solve_forwarding (Inst Args Res Err : Type)
    (impl : Nat → Solver → Inst → Args → PyResult Res Err)
    (s : Solver) (inst : Inst) (args : Args) :
    ((s.getattrD Key.driver).val = Val.pynone →
      s.solve impl inst args =
        (SolveOutcome.lookupErr "Solver is not linked to a MiniZinc driver", s)) ∧
    (∀ d, (s.getattrD Key.driver).val = Val.drv d →
      s.solve impl inst args = (liftResult (impl d s inst args), s)) :=
  ⟨solve_driver_none impl s inst args,
   fun d h => solve_driver_some impl s inst args d h⟩

/-- Witness for C7: no driver on `gecodeNoDriver`, forwarding to driver 21
on `gecodeSolver`. -/
theorem solve_forwarding_witness :
    (gecodeNoDriver.solve exampleImpl 3 4 =
      (SolveOutcome.lookupErr "Solver is not linked to a MiniZinc driver",
        gecodeNoDriver)) ∧
    (gecodeSolver.solve exampleImpl 3 4 =
      (liftResult (exampleImpl 21 gecodeSolver 3 4), gecodeSolver)) :=
  ⟨(solve_forwarding Nat Nat Nat Nat exampleImpl gecodeNoDriver 3 4).1 (by decide),
   (solve_forwarding Nat Nat Nat Nat exampleImpl gecodeSolver 3 4).2 21 (by decide)⟩

/-- C9: constructing with no driver argument stores the process-global
default driver in the `driver` field, so `solve` on such a configuration
raises the no-driver lookup error exactly when that global default is
itself absent, and otherwise forwards to the default driver. -/
theorem init_default_driver (nm vs exe : String) (dd : Option Nat)
    (Inst Args Res Err : Type)
    (impl : Nat → Solver → Inst → Args → PyResult Res Err)
    (inst : Inst) (args : Args) :
    ∀ sol, Solver.init nm vs exe none dd = some sol →
      (sol.attrs Key.driver = some (match dd with
        | none => noneObj
        | some d => ⟨Val.drv d, d⟩)) ∧
      (dd = none → sol.solve impl inst args =
        (SolveOutcome.lookupErr "Solver is not linked to a MiniZinc driver", sol)) ∧
      (∀ d, dd = some d →
        sol.solve impl inst args = (liftResult (impl d sol inst args), sol)) := by
  intro sol hsol
  cases hr : reSearchTriple vs.data with
  | none => simp [Solver.init, hr] at hsol
  | some g =>
    obtain ⟨g1, g2, g3⟩ := g
    simp only [Solver.init, hr, Option.some.injEq] at hsol
    subst hsol
    refine ⟨?_, ?_, ?_⟩
    · simp [setattr_attrs_other, setattr_attrs_self]
    · intro hdd
      subst hdd
      refine solve_driver_none impl _ inst args ?_
      simp [Solver.getattrD, setattr_attrs_other, setattr_attrs_self, noneObj]
    · intro d hdd
      subst hdd
      refine solve_driver_some impl _ inst args d ?_
      simp [Solver.getattrD, setattr_attrs_other, setattr_attrs_self]

/-- Witness for C9: `gecodeSolver` was built with no driver argument while
the default driver was 21, so `solve` forwards to driver 21. -/
theorem init_default_driver_witness :
    gecodeSolver.solve exampleImpl 5 6 =
      (liftResult (exampleImpl 21 gecodeSolver 5 6), gecodeSolver) :=
  (init_default_driver "Gecode" "6.3.0" "gecode" (some 21) Nat Nat Nat Nat
    exampleImpl 5 6 gecodeSolver rfl).2.2 21 rfl
